import Mathlib

/-!
Verification of `artyom/update-cloudformation-stack`.

The repository ships a small Go program (in two variants) that updates
parameters of an existing CloudFormation stack and then polls the stack's
event stream until the update terminates:

* the single-parameter variant (`main.go`): flags `-stack -key -value`,
  sentinel error `errAlreadySet`, monitor that terminates only on
  `UPDATE_COMPLETE` of the stack-level event;
* the multi-parameter variant (the other `main.go` of the repository,
  here called "multi"): positional `Key=Value` arguments parsed by
  `parseKvs`, order-preserving parameter reconciliation, a monitor that
  also recognizes `UPDATE_ROLLBACK_COMPLETE` / `ROLLBACK_FAILED` and that
  skips `UPDATE_FAILED` events whose reason is "Resource update cancelled".

This file gives a shallow embedding of both variants' pure logic:
`strings.TrimSpace` / `strings.Cut` on lists of characters, `parseKvs`,
the parameter-reconciliation loops of both `run` functions, the error
classification done by both `main` functions, and one polling tick of the
event-scanning loop (pagination flattened: `break scanEvents` aborts the
whole tick, so a tick is a single in-order scan of the event list).
Error values are embedded structurally: each `fmt.Errorf` / `errors.New`
site gets its own constructor carrying the formatted arguments.
-/

deriving instance DecidableEq for Except

namespace UpdateCfnStack

/-! ## Strings: models of Go `strings.TrimSpace` and `strings.Cut` -/

/-- The white-space test used by Go `strings.TrimSpace` on Latin-1 input
(`unicode.IsSpace`): space, tab, newline, vertical tab, form feed,
carriage return, NEL and NBSP. -/
def goIsSpace (c : Char) : Bool :=
  c = ' ' ∨ c = '\t' ∨ c = '\n' ∨ c = '\x0b' ∨ c = '\x0c' ∨ c = '\r' ∨
    c = '\u0085' ∨ c = '\u00A0'

/-- Strip leading and trailing white space from a character list. -/
def trimChars (cs : List Char) : List Char :=
  ((cs.dropWhile goIsSpace).reverse.dropWhile goIsSpace).reverse

/-- Model of Go `strings.TrimSpace`. -/
def goTrim (s : String) : String := String.mk (trimChars s.data)

/-- Split a character list at the first `'='`, as Go
`strings.Cut(s, "=")` does; `none` when there is no `'='`. -/
def cutEqChars : List Char → Option (List Char × List Char)
  | [] => none
  | c :: rest =>
    if c = '=' then some ([], rest)
    else
      match cutEqChars rest with
      | none => none
      | some (a, b) => some (c :: a, b)

/-- Model of Go `strings.Cut(s, "=")`. -/
def goCutEq (s : String) : Option (String × String) :=
  match cutEqChars s.data with
  | none => none
  | some (a, b) => some (String.mk a, String.mk b)

/-- Model of `aws.ToString`: dereference an optional string, `""` when absent. -/
def awsToString : Option String → String
  | none => ""
  | some s => s

/-! ## The KV parser (`parseKvs` of the multi-parameter variant)

Each error constructor corresponds to one `fmt.Errorf` site of `parseKvs`,
carrying the formatted argument. -/

/-- Errors of `parseKvs`:
* `badFormat line`: "wrong parameter format, want key=value pair: %q";
* `emptyKeyOrValue line`: "wrong parameter format, both key and value must
  be non-empty: %q";
* `duplicateKey key`: "duplicate key in parameters list: %q". -/
inductive KvError
  | badFormat (line : String)
  | emptyKeyOrValue (line : String)
  | duplicateKey (key : String)
deriving DecidableEq, Repr

/-- Result of processing one line of `parseKvs`' loop body. -/
inductive LineParse
  | blank
  | malformed (e : KvError)
  | pair (key value : String)
deriving DecidableEq, Repr

/-- The per-line part of `parseKvs`' loop body: trim the line, skip it if
blank, cut at the first `=`, trim both sides, and require both non-empty. -/
def parseLine (line : String) : LineParse :=
  let s := goTrim line
  if s = "" then .blank
  else
    match goCutEq s with
    | none => .malformed (.badFormat s)
    | some (k0, v0) =>
      let k := goTrim k0
      let v := goTrim v0
      if k = "" ∨ v = "" then .malformed (.emptyKeyOrValue s)
      else .pair k v

/-- The loop of `parseKvs`, with the map `out` represented as an
association list in insertion order (the Go map is only ever used for
lookup, insertion, and a duplicate test). -/
def parseKvsAux : List (String × String) → List String →
    Except KvError (List (String × String))
  | out, [] => .ok out
  | out, line :: rest =>
    match parseLine line with
    | .blank => parseKvsAux out rest
    | .malformed e => .error e
    | .pair k v =>
      if k ∈ out.map Prod.fst then .error (.duplicateKey k)
      else parseKvsAux (out ++ [(k, v)]) rest

/-- Model of `parseKvs` (multi-parameter variant). -/
def parseKvs (list : List String) : Except KvError (List (String × String)) :=
  parseKvsAux [] list

/-- The keys contributed by the well-formed lines of an input, in line order. -/
def lineKeys (lines : List String) : List String :=
  lines.filterMap fun l =>
    match parseLine l with
    | .pair k _ => some k
    | _ => none

/-- A line the parser does not reject: blank or a well-formed pair. -/
def lineOk (l : String) : Bool :=
  match parseLine l with
  | .malformed _ => false
  | _ => true

/-- Whether a parse result is the duplicate-key error. -/
def isDuplicateKeyError (r : Except KvError (List (String × String))) : Bool :=
  match r with
  | .error (.duplicateKey _) => true
  | _ => false

/-! ## Submission payload entries and run-level errors -/

/-- One entry of the `UpdateStack` parameter list: either
`types.Parameter{ParameterKey, UsePreviousValue: true}` or
`types.Parameter{ParameterKey, ParameterValue}`. -/
inductive Param
  | usePrevious (key : String)
  | explicit (key : String) (value : String)
deriving DecidableEq, Repr

/-- The key of a payload entry. -/
def Param.key : Param → String
  | .usePrevious k => k
  | .explicit k _ => k

/-- Errors a `run` can return, as matched by the two `main` functions:
* `alreadySet`: the sentinel `errAlreadySet` (single-parameter variant);
* `noSuchKey`: "stack has no parameter with the given key" (single);
* `kv e`: an error from `parseKvs` (multi);
* `emptyParameters`: "empty parameters list" (multi);
* `unknownParameters ks`: "stack has no parameters with these names: ..."
  with `ks` the sorted unmatched keys (multi);
* `api code msg`: a `smithy.APIError` with that error code and message;
* `other msg`: any other error value. -/
inductive RunError
  | alreadySet
  | noSuchKey
  | kv (e : KvError)
  | emptyParameters
  | unknownParameters (keys : List String)
  | api (code msg : String)
  | other (msg : String)
deriving DecidableEq, Repr

/-! ## Sorting (model of Go `slices.Sorted(maps.Keys(m))`) -/

/-- Byte-wise lexicographic comparison of strings as Go uses for
`slices.Sorted`, on the character lists. -/
def lexLe : List Char → List Char → Bool
  | [], _ => true
  | _ :: _, [] => false
  | a :: as, b :: bs =>
    if a < b then true
    else if a = b then lexLe as bs
    else false

/-- `a` sorts no later than `b`. -/
def strLe (a b : String) : Bool := lexLe a.data b.data

/-- Insert into a sorted list, keeping it sorted. -/
def insertSorted (x : String) : List String → List String
  | [] => [x]
  | y :: ys => if strLe x y then x :: y :: ys else y :: insertSorted x ys

/-- Model of Go `slices.Sorted`: sort a list of strings ascending. -/
def sortStrings (l : List String) : List String := l.foldr insertSorted []

/-! ## The parameter reconcilers

`reconcileMulti` is the loop over `stack.Parameters` in the
multi-parameter variant's `run` (lookup the key among the overrides,
emit an explicit entry and delete the override on a hit, a use-previous
entry otherwise, and finally report any unconsumed overrides, sorted).
`reconcileSingle` is the corresponding loop of `main.go`'s `run`. -/

/-- First value bound to `k` in an association list (Go map lookup). -/
def lookupKey (k : String) : List (String × String) → Option String
  | [] => none
  | p :: rest => if p.1 = k then some p.2 else lookupKey k rest

/-- Remove every entry with key `k` (Go map `delete`). -/
def removeKey (k : String) (l : List (String × String)) : List (String × String) :=
  l.filter fun p => decide (p.1 ≠ k)

/-- The loop over the current parameters of the multi-parameter `run`:
returns the overrides left unconsumed and the payload built so far. -/
def reconcileMultiAux : List (String × String) → List Param →
    List (String × String) → List (String × String) × List Param
  | ov, acc, [] => (ov, acc)
  | ov, acc, p :: rest =>
    match lookupKey p.1 ov with
    | some v => reconcileMultiAux (removeKey p.1 ov) (acc ++ [.explicit p.1 v]) rest
    | none => reconcileMultiAux ov (acc ++ [.usePrevious p.1]) rest

/-- Parameter reconciliation of the multi-parameter variant: the loop over
`stack.Parameters` followed by the `len(toReplace) != 0` check, whose error
carries the unmatched keys sorted (`slices.Sorted(maps.Keys(toReplace))`). -/
def reconcileMulti (current overrides : List (String × String)) :
    Except RunError (List Param) :=
  let r := reconcileMultiAux overrides [] current
  if r.1.isEmpty then .ok r.2
  else .error (.unknownParameters (sortStrings (r.1.map Prod.fst)))

/-- The loop over the current parameters of `main.go`'s `run`: `seen`
is `seenKey`, `acc` the `params` built so far. An entry whose key and
value both match returns `errAlreadySet`; an entry whose key matches is
skipped (it is appended explicitly after the loop); every other entry
becomes a use-previous marker. -/
def reconcileSingleAux (key value : String) : Bool → List Param →
    List (String × String) → Except RunError (Bool × List Param)
  | seen, acc, [] => .ok (seen, acc)
  | seen, acc, p :: rest =>
    if p.1 = key ∧ p.2 = value then .error .alreadySet
    else if p.1 = key then reconcileSingleAux key value true acc rest
    else reconcileSingleAux key value seen (acc ++ [.usePrevious p.1]) rest

/-- Parameter reconciliation of the single-parameter variant (`main.go`):
the loop, the `!seenKey` check, and the final
`append(params, {args.key, args.value})`. -/
def reconcileSingle (current : List (String × String)) (key value : String) :
    Except RunError (List Param) :=
  match reconcileSingleAux key value false [] current with
  | .error e => .error e
  | .ok (seen, ps) =>
    if seen then .ok (ps ++ [.explicit key value]) else .error .noSuchKey

/-- The payload the single-parameter `run` submits to `UpdateStack`
(`none` when reconciliation errors out before the call). -/
def runSinglePayload (current : List (String × String)) (key value : String) :
    Option (List Param) :=
  match reconcileSingle current key value with
  | .ok ps => some ps
  | .error _ => none

/-- The phase of the multi-parameter `run` before any AWS call: the
stack-name check, `parseKvs`, and the `len(toReplace) == 0` check; on
success it hands the override map to the AWS-facing part. -/
def runMultiPre (stackName : String) (args : List String) :
    Except RunError (List (String × String)) :=
  if stackName = "" then .error (.other "stack name must be set")
  else
    match parseKvs args with
    | .error e => .error (.kv e)
    | .ok kvs =>
      if kvs.isEmpty then .error .emptyParameters else .ok kvs

/-! ## Error classification in the two `main` functions -/

/-- How a `main` reacts to a `run` error: print a warning and exit zero,
or print the error and exit non-zero (`log.Fatal`). -/
inductive ExitBehavior
  | successWithWarning
  | failureExit
deriving DecidableEq, Repr

/-- The multi-parameter `main`: a `smithy.APIError` with code
"ValidationError" and message "No updates are to be performed." prints
"nothing to update" as a warning and returns; anything else is fatal. -/
def mainExitMulti : RunError → ExitBehavior
  | .api code msg =>
    if code = "ValidationError" ∧ msg = "No updates are to be performed." then
      .successWithWarning
    else .failureExit
  | _ => .failureExit

/-- `main.go`'s `main`: `errors.Is(err, errAlreadySet)` prints a warning
and returns; then the same `ValidationError` match as the multi-parameter
variant; anything else is fatal. -/
def mainExitSingle : RunError → ExitBehavior
  | .alreadySet => .successWithWarning
  | .api code msg =>
    if code = "ValidationError" ∧ msg = "No updates are to be performed." then
      .successWithWarning
    else .failureExit
  | _ => .failureExit

/-! ## The progress monitor

One polling tick scans the `DescribeStackEvents` pages in order; since
`break scanEvents` aborts the whole tick, the pages are flattened into a
single event list. `classifyEventMulti` / `classifyEventSingle` are the
respective loop bodies, `scanEventsMulti` / `scanEventsSingle` one tick,
and `monitorMulti` / `monitorSingle` the polling loop over the per-tick
snapshots of the event stream. -/

/-- A CloudFormation stack event, with the fields the monitor reads.
Timestamps are integers (comparison is all the code does with them);
optional fields are `Option`s, read back through `aws.ToString`. -/
structure StackEvent where
  timestamp : Option Int
  clientRequestToken : Option String
  resourceStatus : String
  resourceStatusReason : Option String
  logicalResourceId : Option String
  resourceType : Option String
deriving DecidableEq, Repr

/-- `evt.Timestamp != nil && aws.ToTime(evt.Timestamp).Before(oldEventsCutoff)`. -/
def isStale (cutoff : Int) (e : StackEvent) : Bool :=
  match e.timestamp with
  | none => false
  | some t => t < cutoff

/-- Negation of `evt.ClientRequestToken == nil || *evt.ClientRequestToken != token`. -/
def tokenMatches (token : String) (e : StackEvent) : Bool :=
  match e.clientRequestToken with
  | none => false
  | some t => t = token

/-- Outcome of one polling tick:
* `keepPolling`: the tick ended without a terminal event (end of stream
  or `break scanEvents` on a stale event) — wait for the next tick;
* `success`: `return nil`;
* `resourceFailed status reason`: `fmt.Errorf("%v: %s", ...)` on an
  `UPDATE_FAILED` event;
* `rolledBack status`: `fmt.Errorf("%v, see AWS CloudFormation Console
  for more details", ...)` (multi-parameter variant only). -/
inductive TickOutcome
  | keepPolling
  | success
  | resourceFailed (status reason : String)
  | rolledBack (status : String)
deriving DecidableEq, Repr

/-- What the loop body does with one event: move to the next event, or
stop the tick with an outcome. -/
inductive EventStep
  | skip
  | stop (r : TickOutcome)
deriving DecidableEq, Repr

/-- Loop body of the multi-parameter monitor: staleness cutoff, token
filter, the `UPDATE_FAILED` check with the "Resource update cancelled"
exception, then the stack-level terminal statuses. -/
def classifyEventMulti (cutoff : Int) (token stackName : String)
    (e : StackEvent) : EventStep :=
  if isStale cutoff e then .stop .keepPolling
  else if ¬ tokenMatches token e then .skip
  else if e.resourceStatus = "UPDATE_FAILED" ∧
      awsToString e.resourceStatusReason ≠ "Resource update cancelled" then
    .stop (.resourceFailed e.resourceStatus (awsToString e.resourceStatusReason))
  else if awsToString e.logicalResourceId = stackName ∧
      awsToString e.resourceType = "AWS::CloudFormation::Stack" then
    if e.resourceStatus = "UPDATE_ROLLBACK_COMPLETE" ∨
        e.resourceStatus = "ROLLBACK_FAILED" then
      .stop (.rolledBack e.resourceStatus)
    else if e.resourceStatus = "UPDATE_COMPLETE" then .stop .success
    else .skip
  else .skip

/-- Loop body of `main.go`'s monitor: staleness cutoff, token filter, the
unconditional `UPDATE_FAILED` check, then only `UPDATE_COMPLETE` of the
stack-level event. -/
def classifyEventSingle (cutoff : Int) (token stackName : String)
    (e : StackEvent) : EventStep :=
  if isStale cutoff e then .stop .keepPolling
  else if ¬ tokenMatches token e then .skip
  else if e.resourceStatus = "UPDATE_FAILED" then
    .stop (.resourceFailed e.resourceStatus (awsToString e.resourceStatusReason))
  else if awsToString e.logicalResourceId = stackName ∧
      awsToString e.resourceType = "AWS::CloudFormation::Stack" then
    if e.resourceStatus = "UPDATE_COMPLETE" then .stop .success
    else .skip
  else .skip

/-- One polling tick of the multi-parameter monitor. -/
def scanEventsMulti (cutoff : Int) (token stackName : String) :
    List StackEvent → TickOutcome
  | [] => .keepPolling
  | e :: rest =>
    match classifyEventMulti cutoff token stackName e with
    | .stop r => r
    | .skip => scanEventsMulti cutoff token stackName rest

/-- One polling tick of the single-parameter monitor. -/
def scanEventsSingle (cutoff : Int) (token stackName : String) :
    List StackEvent → TickOutcome
  | [] => .keepPolling
  | e :: rest =>
    match classifyEventSingle cutoff token stackName e with
    | .stop r => r
    | .skip => scanEventsSingle cutoff token stackName rest

/-- The polling loop of the multi-parameter variant over successive
snapshots of the event stream: the first tick that does not keep polling
decides the outcome; `none` if every given tick kept polling. -/
def monitorMulti (cutoff : Int) (token stackName : String) :
    List (List StackEvent) → Option TickOutcome
  | [] => none
  | es :: rest =>
    match scanEventsMulti cutoff token stackName es with
    | .keepPolling => monitorMulti cutoff token stackName rest
    | r => some r

/-- The polling loop of the single-parameter variant. -/
def monitorSingle (cutoff : Int) (token stackName : String) :
    List (List StackEvent) → Option TickOutcome
  | [] => none
  | es :: rest =>
    match scanEventsSingle cutoff token stackName es with
    | .keepPolling => monitorSingle cutoff token stackName rest
    | r => some r

/-! ## Monitor lemmas -/

/-- A fresh event whose token does not match is skipped by the
multi-parameter loop body. -/
theorem classifyEventMulti_skip_of_other_token {cutoff : Int} {token : String}
    (stackName : String) {e : StackEvent}
    (h1 : isStale cutoff e = false) (h2 : tokenMatches token e = false) :
    classifyEventMulti cutoff token stackName e = .skip := by
  unfold classifyEventMulti
  simp [h1, h2]

/-- A fresh event whose token does not match is skipped by the
single-parameter loop body. -/
theorem classifyEventSingle_skip_of_other_token {cutoff : Int} {token : String}
    (stackName : String) {e : StackEvent}
    (h1 : isStale cutoff e = false) (h2 : tokenMatches token e = false) :
    classifyEventSingle cutoff token stackName e = .skip := by
  unfold classifyEventSingle
  simp [h1, h2]

/-- Deleting a skipped event anywhere in a tick's scan does not change the
tick's outcome (multi-parameter variant). -/
theorem scanEventsMulti_erase_skip {cutoff : Int} {token stackName : String}
    {e : StackEvent} (h : classifyEventMulti cutoff token stackName e = .skip) :
    ∀ es1 es2, scanEventsMulti cutoff token stackName (es1 ++ e :: es2) =
      scanEventsMulti cutoff token stackName (es1 ++ es2) := by
  intro es1 es2
  induction es1 with
  | nil => simp [scanEventsMulti, h]
  | cons a as ih =>
    simp only [List.cons_append, scanEventsMulti]
    cases classifyEventMulti cutoff token stackName a with
    | stop r => rfl
    | skip => exact ih

/-- Deleting a skipped event anywhere in a tick's scan does not change the
tick's outcome (single-parameter variant). -/
theorem scanEventsSingle_erase_skip {cutoff : Int} {token stackName : String}
    {e : StackEvent} (h : classifyEventSingle cutoff token stackName e = .skip) :
    ∀ es1 es2, scanEventsSingle cutoff token stackName (es1 ++ e :: es2) =
      scanEventsSingle cutoff token stackName (es1 ++ es2) := by
  intro es1 es2
  induction es1 with
  | nil => simp [scanEventsSingle, h]
  | cons a as ih =>
    simp only [List.cons_append, scanEventsSingle]
    cases classifyEventSingle cutoff token stackName a with
    | stop r => rfl
    | skip => exact ih

/-- A stale event truncates the tick: the outcome is the outcome of the
scan of the events before it (multi-parameter variant). -/
theorem scanEventsMulti_stale_truncates {cutoff : Int} {token stackName : String}
    {e : StackEvent} (h : isStale cutoff e = true) :
    ∀ es1 es2, scanEventsMulti cutoff token stackName (es1 ++ e :: es2) =
      scanEventsMulti cutoff token stackName es1 := by
  intro es1 es2
  induction es1 with
  | nil =>
    simp only [List.nil_append, scanEventsMulti]
    unfold classifyEventMulti
    simp [h, scanEventsMulti]
  | cons a as ih =>
    simp only [List.cons_append, scanEventsMulti]
    cases classifyEventMulti cutoff token stackName a with
    | stop r => rfl
    | skip => exact ih

/-- A stale event truncates the tick (single-parameter variant). -/
theorem scanEventsSingle_stale_truncates {cutoff : Int} {token stackName : String}
    {e : StackEvent} (h : isStale cutoff e = true) :
    ∀ es1 es2, scanEventsSingle cutoff token stackName (es1 ++ e :: es2) =
      scanEventsSingle cutoff token stackName es1 := by
  intro es1 es2
  induction es1 with
  | nil =>
    simp only [List.nil_append, scanEventsSingle]
    unfold classifyEventSingle
    simp [h, scanEventsSingle]
  | cons a as ih =>
    simp only [List.cons_append, scanEventsSingle]
    cases classifyEventSingle cutoff token stackName a with
    | stop r => rfl
    | skip => exact ih

/-- Every outcome other than `keepPolling` comes from some event of the
scanned list on which the loop body stopped (multi-parameter variant). -/
theorem scanEventsMulti_stop_source {cutoff : Int} {token stackName : String} :
    ∀ {es : List StackEvent} {r : TickOutcome},
      scanEventsMulti cutoff token stackName es = r → r ≠ .keepPolling →
      ∃ e ∈ es, classifyEventMulti cutoff token stackName e = .stop r := by
  intro es
  induction es with
  | nil =>
    intro r h hne
    exact absurd h.symm hne
  | cons a as ih =>
    intro r h hne
    rw [scanEventsMulti] at h
    cases hc : classifyEventMulti cutoff token stackName a with
    | stop r0 =>
      rw [hc] at h
      change r0 = r at h
      exact ⟨a, List.mem_cons_self a as, by rw [hc, h]⟩
    | skip =>
      rw [hc] at h
      change scanEventsMulti cutoff token stackName as = r at h
      obtain ⟨e, he, hcl⟩ := ih h hne
      exact ⟨e, List.mem_cons_of_mem a he, hcl⟩

/-- Ticks with equal outcomes are interchangeable inside the polling loop
(multi-parameter variant). -/
theorem monitorMulti_congr_tick {cutoff : Int} {token stackName : String}
    {es es' : List StackEvent}
    (h : scanEventsMulti cutoff token stackName es =
      scanEventsMulti cutoff token stackName es') :
    ∀ ts1 ts2, monitorMulti cutoff token stackName (ts1 ++ es :: ts2) =
      monitorMulti cutoff token stackName (ts1 ++ es' :: ts2) := by
  intro ts1 ts2
  induction ts1 with
  | nil => simp only [List.nil_append, monitorMulti, h]
  | cons a as ih =>
    simp only [List.cons_append, monitorMulti]
    cases scanEventsMulti cutoff token stackName a with
    | keepPolling => exact ih
    | success => rfl
    | resourceFailed st r => rfl
    | rolledBack st => rfl

/-- Ticks with equal outcomes are interchangeable inside the polling loop
(single-parameter variant). -/
theorem monitorSingle_congr_tick {cutoff : Int} {token stackName : String}
    {es es' : List StackEvent}
    (h : scanEventsSingle cutoff token stackName es =
      scanEventsSingle cutoff token stackName es') :
    ∀ ts1 ts2, monitorSingle cutoff token stackName (ts1 ++ es :: ts2) =
      monitorSingle cutoff token stackName (ts1 ++ es' :: ts2) := by
  intro ts1 ts2
  induction ts1 with
  | nil => simp only [List.nil_append, monitorSingle, h]
  | cons a as ih =>
    simp only [List.cons_append, monitorSingle]
    cases scanEventsSingle cutoff token stackName a with
    | keepPolling => exact ih
    | success => rfl
    | resourceFailed st r => rfl
    | rolledBack st => rfl

/-- The multi-parameter loop body stops with `success` exactly on a fresh,
token-matched, stack-level `UPDATE_COMPLETE` event. -/
theorem classifyEventMulti_success_iff (cutoff : Int) (token stackName : String)
    (e : StackEvent) :
    classifyEventMulti cutoff token stackName e = .stop .success ↔
      isStale cutoff e = false ∧ tokenMatches token e = true ∧
      awsToString e.logicalResourceId = stackName ∧
      awsToString e.resourceType = "AWS::CloudFormation::Stack" ∧
      e.resourceStatus = "UPDATE_COMPLETE" := by
  unfold classifyEventMulti
  split_ifs with h1 h2 h3 h4 h5 h6
  all_goals simp_all
  rcases h5 with h5 | h5 <;> simp [h5]

/-- The multi-parameter loop body stops with `rolledBack st` exactly on a
fresh, token-matched, stack-level event of status `st` with `st` one of
`UPDATE_ROLLBACK_COMPLETE` and `ROLLBACK_FAILED`. -/
theorem classifyEventMulti_rolledBack_iff (cutoff : Int) (token stackName : String)
    (e : StackEvent) (st : String) :
    classifyEventMulti cutoff token stackName e = .stop (.rolledBack st) ↔
      isStale cutoff e = false ∧ tokenMatches token e = true ∧
      awsToString e.logicalResourceId = stackName ∧
      awsToString e.resourceType = "AWS::CloudFormation::Stack" ∧
      e.resourceStatus = st ∧
      (st = "UPDATE_ROLLBACK_COMPLETE" ∨ st = "ROLLBACK_FAILED") := by
  unfold classifyEventMulti
  split_ifs with h1 h2 h3 h4 h5 h6
  all_goals simp_all
  · rintro - - rfl
    simp
  · rintro rfl
    exact h5
  · rintro rfl
    simp
  · rintro rfl
    exact h5

/-- The single-parameter loop body stops with `success` exactly on a
fresh, token-matched, stack-level `UPDATE_COMPLETE` event. -/
theorem classifyEventSingle_success_iff (cutoff : Int) (token stackName : String)
    (e : StackEvent) :
    classifyEventSingle cutoff token stackName e = .stop .success ↔
      isStale cutoff e = false ∧ tokenMatches token e = true ∧
      awsToString e.logicalResourceId = stackName ∧
      awsToString e.resourceType = "AWS::CloudFormation::Stack" ∧
      e.resourceStatus = "UPDATE_COMPLETE" := by
  unfold classifyEventSingle
  split_ifs with h1 h2 h3 h4 h5 <;> simp_all

/-- The single-parameter loop body never reports a rollback. -/
theorem classifyEventSingle_ne_rolledBack (cutoff : Int) (token stackName : String)
    (e : StackEvent) (st : String) :
    classifyEventSingle cutoff token stackName e ≠ .stop (.rolledBack st) := by
  unfold classifyEventSingle
  split_ifs <;> simp

/-- The multi-parameter loop body stops with `resourceFailed st r` exactly
on a fresh, token-matched `UPDATE_FAILED` event whose reason `r` is not
"Resource update cancelled". -/
theorem classifyEventMulti_resourceFailed_iff (cutoff : Int)
    (token stackName : String) (e : StackEvent) (st r : String) :
    classifyEventMulti cutoff token stackName e = .stop (.resourceFailed st r) ↔
      isStale cutoff e = false ∧ tokenMatches token e = true ∧
      e.resourceStatus = "UPDATE_FAILED" ∧ st = e.resourceStatus ∧
      r = awsToString e.resourceStatusReason ∧
      r ≠ "Resource update cancelled" := by
  unfold classifyEventMulti
  split_ifs with h1 h2 h3 h4 h5 h6
  all_goals simp_all
  constructor
  · rintro ⟨rfl, rfl⟩
    exact ⟨rfl, rfl, h3.2⟩
  · rintro ⟨rfl, rfl, -⟩
    exact ⟨rfl, rfl⟩

/-- The single-parameter loop body stops with `resourceFailed st r` exactly
on a fresh, token-matched `UPDATE_FAILED` event — with no exception for
the "Resource update cancelled" reason. -/
theorem classifyEventSingle_resourceFailed_iff (cutoff : Int)
    (token stackName : String) (e : StackEvent) (st r : String) :
    classifyEventSingle cutoff token stackName e = .stop (.resourceFailed st r) ↔
      isStale cutoff e = false ∧ tokenMatches token e = true ∧
      e.resourceStatus = "UPDATE_FAILED" ∧ st = e.resourceStatus ∧
      r = awsToString e.resourceStatusReason := by
  unfold classifyEventSingle
  split_ifs with h1 h2 h3 h4 h5
  all_goals simp_all
  constructor <;> rintro ⟨rfl, rfl⟩ <;> exact ⟨rfl, rfl⟩

/-- A fresh, token-matched `UPDATE_FAILED` event whose reason is
"Resource update cancelled" is skipped by the multi-parameter loop body. -/
theorem classifyEventMulti_skip_of_cancelled {cutoff : Int}
    {token : String} (stackName : String) {e : StackEvent}
    (h1 : isStale cutoff e = false) (h2 : tokenMatches token e = true)
    (h3 : e.resourceStatus = "UPDATE_FAILED")
    (h4 : awsToString e.resourceStatusReason = "Resource update cancelled") :
    classifyEventMulti cutoff token stackName e = .skip := by
  unfold classifyEventMulti
  simp [h1, h2, h3, h4]

/-! ## Claim C2 — terminal detection.

The multi-parameter monitor behaves as the claim states; the
single-parameter monitor (`main.go`, also cited by the claim) never
terminates on the rollback statuses, so the claim as stated fails. -/

/-- A fresh, token-matched, stack-level `UPDATE_ROLLBACK_COMPLETE` event. -/
def evC2rb : StackEvent :=
  ⟨some 5, some "tok", "UPDATE_ROLLBACK_COMPLETE", none, some "mystack",
    some "AWS::CloudFormation::Stack"⟩

/-- A fresh, token-matched, stack-level `UPDATE_COMPLETE` event. -/
def evC2done : StackEvent :=
  ⟨some 5, some "tok", "UPDATE_COMPLETE", none, some "mystack",
    some "AWS::CloudFormation::Stack"⟩

/-- C2, counterexample: on a fresh, token-matched, stack-level
`UPDATE_ROLLBACK_COMPLETE` event, the claim says the run ends with an
error naming the status, but the single-parameter monitor (`main.go`)
keeps polling — only the multi-parameter monitor ends the run. -/
theorem claim_C2_counterexample :
    scanEventsSingle 0 "tok" "mystack" [evC2rb] = .keepPolling ∧
    monitorSingle 0 "tok" "mystack" [[evC2rb], [evC2rb]] = none ∧
    scanEventsMulti 0 "tok" "mystack" [evC2rb] =
      .rolledBack "UPDATE_ROLLBACK_COMPLETE" := by decide

/-- C2, amended: in the multi-parameter variant, a tick succeeds exactly
on a fresh, token-matched event whose logical resource id is the stack
name and whose resource type is `AWS::CloudFormation::Stack` with status
`UPDATE_COMPLETE`, reports rollback exactly on such an event with status
`UPDATE_ROLLBACK_COMPLETE` or `ROLLBACK_FAILED`, and every terminal tick
outcome comes from an event of the scanned stream; in the
single-parameter variant the same holds for success, but the rollback
statuses never terminate the monitor. -/
theorem claim_C2_amended (cutoff : Int) (token stackName : String) :
    (∀ e, classifyEventMulti cutoff token stackName e = .stop .success ↔
      isStale cutoff e = false ∧ tokenMatches token e = true ∧
      awsToString e.logicalResourceId = stackName ∧
      awsToString e.resourceType = "AWS::CloudFormation::Stack" ∧
      e.resourceStatus = "UPDATE_COMPLETE") ∧
    (∀ e st, classifyEventMulti cutoff token stackName e = .stop (.rolledBack st) ↔
      isStale cutoff e = false ∧ tokenMatches token e = true ∧
      awsToString e.logicalResourceId = stackName ∧
      awsToString e.resourceType = "AWS::CloudFormation::Stack" ∧
      e.resourceStatus = st ∧
      (st = "UPDATE_ROLLBACK_COMPLETE" ∨ st = "ROLLBACK_FAILED")) ∧
    (∀ es r, scanEventsMulti cutoff token stackName es = r →
      r ≠ .keepPolling →
      ∃ e ∈ es, classifyEventMulti cutoff token stackName e = .stop r) ∧
    (∀ e, classifyEventSingle cutoff token stackName e = .stop .success ↔
      isStale cutoff e = false ∧ tokenMatches token e = true ∧
      awsToString e.logicalResourceId = stackName ∧
      awsToString e.resourceType = "AWS::CloudFormation::Stack" ∧
      e.resourceStatus = "UPDATE_COMPLETE") ∧
    (∀ e st, classifyEventSingle cutoff token stackName e ≠ .stop (.rolledBack st)) :=
  ⟨classifyEventMulti_success_iff cutoff token stackName,
   classifyEventMulti_rolledBack_iff cutoff token stackName,
   fun _ _ h hne => scanEventsMulti_stop_source h hne,
   classifyEventSingle_success_iff cutoff token stackName,
   classifyEventSingle_ne_rolledBack cutoff token stackName⟩

/-- C2, witness: the amended theorem applied at a concrete
`UPDATE_COMPLETE` event. -/
theorem claim_C2_witness :
    classifyEventMulti 0 "tok" "mystack" evC2done = .stop .success :=
  ((claim_C2_amended 0 "tok" "mystack").1 evC2done).mpr (by decide)

/-! ## Claim C3 — the "Resource update cancelled" exception.

Only the multi-parameter monitor has the exception; `main.go` (also cited
by the claim) fails immediately on any token-matched `UPDATE_FAILED`
event, including one whose reason is "Resource update cancelled". -/

/-- A token-matched `UPDATE_FAILED` event with the cancellation reason. -/
def evC3cancel : StackEvent :=
  ⟨some 5, some "tok", "UPDATE_FAILED", some "Resource update cancelled",
    some "WebServer", some "AWS::EC2::Instance"⟩

/-- A token-matched `UPDATE_FAILED` event with a genuine failure reason. -/
def evC3genuine : StackEvent :=
  ⟨some 6, some "tok", "UPDATE_FAILED", some "insufficient capacity",
    some "Database", some "AWS::RDS::DBInstance"⟩

/-- C3, counterexample: on a token-matched `UPDATE_FAILED` event whose
reason is "Resource update cancelled", the single-parameter monitor
(`main.go`) fails immediately with that reason instead of continuing to
the later genuine failure, contrary to the claim; the multi-parameter
monitor continues and reports the genuine reason. -/
theorem claim_C3_counterexample :
    classifyEventSingle 0 "tok" "mystack" evC3cancel =
      .stop (.resourceFailed "UPDATE_FAILED" "Resource update cancelled") ∧
    scanEventsSingle 0 "tok" "mystack" [evC3cancel, evC3genuine] =
      .resourceFailed "UPDATE_FAILED" "Resource update cancelled" ∧
    scanEventsMulti 0 "tok" "mystack" [evC3cancel, evC3genuine] =
      .resourceFailed "UPDATE_FAILED" "insufficient capacity" := by decide

/-- C3, amended: in the multi-parameter variant a tick fails with
`resourceFailed` exactly on a fresh, token-matched `UPDATE_FAILED` event
whose reason is not "Resource update cancelled"; a token-matched
`UPDATE_FAILED` event with that reason is skipped, so the scan continues
behind it; in the single-parameter variant every fresh, token-matched
`UPDATE_FAILED` event fails the run immediately, with no exception for
the cancellation reason. -/
theorem claim_C3_amended (cutoff : Int) (token stackName : String) :
    (∀ e st r, classifyEventMulti cutoff token stackName e =
        .stop (.resourceFailed st r) ↔
      isStale cutoff e = false ∧ tokenMatches token e = true ∧
      e.resourceStatus = "UPDATE_FAILED" ∧ st = e.resourceStatus ∧
      r = awsToString e.resourceStatusReason ∧
      r ≠ "Resource update cancelled") ∧
    (∀ e, isStale cutoff e = false → tokenMatches token e = true →
      e.resourceStatus = "UPDATE_FAILED" →
      awsToString e.resourceStatusReason = "Resource update cancelled" →
      classifyEventMulti cutoff token stackName e = .skip) ∧
    (∀ e es, classifyEventMulti cutoff token stackName e = .skip →
      scanEventsMulti cutoff token stackName (e :: es) =
        scanEventsMulti cutoff token stackName es) ∧
    (∀ e st r, classifyEventSingle cutoff token stackName e =
        .stop (.resourceFailed st r) ↔
      isStale cutoff e = false ∧ tokenMatches token e = true ∧
      e.resourceStatus = "UPDATE_FAILED" ∧ st = e.resourceStatus ∧
      r = awsToString e.resourceStatusReason) :=
  ⟨classifyEventMulti_resourceFailed_iff cutoff token stackName,
   fun _ h1 h2 h3 h4 => classifyEventMulti_skip_of_cancelled stackName h1 h2 h3 h4,
   fun e es h => by rw [scanEventsMulti, h],
   classifyEventSingle_resourceFailed_iff cutoff token stackName⟩

/-- C3, witness: the amended theorem applied at a concrete cancelled
`UPDATE_FAILED` event; the multi-parameter loop body skips it. -/
theorem claim_C3_witness :
    classifyEventMulti 0 "tok" "mystack" evC3cancel = .skip :=
  (claim_C3_amended 0 "tok" "mystack").2.1 evC3cancel
    (by decide) (by decide) (by decide) (by decide)

/-! ## Claim C4 — non-matching events never influence the outcome.

False as stated: the staleness check runs before the token filter, so a
*stale* non-matching event truncates the tick's scan and can keep a
terminal event from being seen. Fresh non-matching events are indeed
inert. -/

/-- A stale event of another run (token "other", timestamp before the cutoff). -/
def evC4stale : StackEvent :=
  ⟨some (-1), some "other", "UPDATE_COMPLETE", none, some "mystack",
    some "AWS::CloudFormation::Stack"⟩

/-- This run's fresh, stack-level `UPDATE_COMPLETE` event. -/
def evC4done : StackEvent :=
  ⟨some 5, some "tok", "UPDATE_COMPLETE", none, some "mystack",
    some "AWS::CloudFormation::Stack"⟩

/-- A fresh event of another run. -/
def evC4other : StackEvent :=
  ⟨some 3, some "other", "UPDATE_COMPLETE", none, some "mystack",
    some "AWS::CloudFormation::Stack"⟩

/-- C4, counterexample: removing a *stale* event whose token does not
match changes the outcome of both monitors — with it the tick is
truncated before this run's `UPDATE_COMPLETE` event and the monitor keeps
polling; without it the run succeeds. -/
theorem claim_C4_counterexample :
    tokenMatches "tok" evC4stale = false ∧
    scanEventsMulti 0 "tok" "mystack" [evC4stale, evC4done] = .keepPolling ∧
    scanEventsMulti 0 "tok" "mystack" [evC4done] = .success ∧
    monitorMulti 0 "tok" "mystack" [[evC4stale, evC4done]] = none ∧
    monitorMulti 0 "tok" "mystack" [[evC4done]] = some .success ∧
    scanEventsSingle 0 "tok" "mystack" [evC4stale, evC4done] = .keepPolling ∧
    scanEventsSingle 0 "tok" "mystack" [evC4done] = .success := by decide

/-- C4, amended: an event whose token is absent or differs from the run's
token *and whose timestamp is not older than the cutoff* never influences
either monitor: inserting or removing such an event anywhere in a tick's
scan leaves the tick's outcome, and the whole polling loop's outcome,
unchanged. (A stale non-matching event can truncate the scan.) -/
theorem claim_C4_amended (cutoff : Int) (token stackName : String)
    (e : StackEvent) (h1 : tokenMatches token e = false)
    (h2 : isStale cutoff e = false) :
    (∀ es1 es2, scanEventsMulti cutoff token stackName (es1 ++ e :: es2) =
      scanEventsMulti cutoff token stackName (es1 ++ es2)) ∧
    (∀ es1 es2, scanEventsSingle cutoff token stackName (es1 ++ e :: es2) =
      scanEventsSingle cutoff token stackName (es1 ++ es2)) ∧
    (∀ ts1 es1 es2 ts2,
      monitorMulti cutoff token stackName (ts1 ++ (es1 ++ e :: es2) :: ts2) =
      monitorMulti cutoff token stackName (ts1 ++ (es1 ++ es2) :: ts2)) ∧
    (∀ ts1 es1 es2 ts2,
      monitorSingle cutoff token stackName (ts1 ++ (es1 ++ e :: es2) :: ts2) =
      monitorSingle cutoff token stackName (ts1 ++ (es1 ++ es2) :: ts2)) := by
  have hm := classifyEventMulti_skip_of_other_token stackName h2 h1
  have hs := classifyEventSingle_skip_of_other_token stackName h2 h1
  refine ⟨scanEventsMulti_erase_skip hm, scanEventsSingle_erase_skip hs, ?_, ?_⟩
  · intro ts1 es1 es2 ts2
    exact monitorMulti_congr_tick (scanEventsMulti_erase_skip hm es1 es2) ts1 ts2
  · intro ts1 es1 es2 ts2
    exact monitorSingle_congr_tick (scanEventsSingle_erase_skip hs es1 es2) ts1 ts2

/-- C4, witness: the amended theorem applied to a concrete fresh
non-matching event inserted behind this run's terminal event. -/
theorem claim_C4_witness :
    tokenMatches "tok" evC4other = false ∧ isStale 0 evC4other = false ∧
    scanEventsMulti 0 "tok" "mystack" ([] ++ evC4other :: [evC4done]) =
      scanEventsMulti 0 "tok" "mystack" ([] ++ [evC4done]) :=
  ⟨by decide, by decide,
    (claim_C4_amended 0 "tok" "mystack" evC4other (by decide) (by decide)).1
      [] [evC4done]⟩

/-! ## Claim C5 — the staleness cutoff truncates the tick. -/

/-- A stale event (timestamp older than the cutoff). -/
def evC5stale : StackEvent :=
  ⟨some (-10), some "tok", "UPDATE_COMPLETE", none, some "mystack",
    some "AWS::CloudFormation::Stack"⟩

/-- A fresh, token-matched, non-terminal progress event. -/
def evC5prog : StackEvent :=
  ⟨some 2, some "tok", "UPDATE_IN_PROGRESS", none, some "WebServer",
    some "AWS::EC2::Instance"⟩

/-- This run's fresh, stack-level `UPDATE_COMPLETE` event. -/
def evC5done : StackEvent :=
  ⟨some 5, some "tok", "UPDATE_COMPLETE", none, some "mystack",
    some "AWS::CloudFormation::Stack"⟩

/-- C5: once a stale event (timestamp older than the cutoff) is reached
in scan order, the tick's outcome is exactly the outcome of scanning the
events before it — everything at or behind the stale event is ignored for
this tick, in both variants. -/
theorem claim_C5_stale_truncates (cutoff : Int) (token stackName : String)
    (e : StackEvent) (h : isStale cutoff e = true) :
    (∀ es1 es2, scanEventsMulti cutoff token stackName (es1 ++ e :: es2) =
      scanEventsMulti cutoff token stackName es1) ∧
    (∀ es1 es2, scanEventsSingle cutoff token stackName (es1 ++ e :: es2) =
      scanEventsSingle cutoff token stackName es1) :=
  ⟨scanEventsMulti_stale_truncates h, scanEventsSingle_stale_truncates h⟩

/-- C5, witness: the theorem applied at a concrete stale event sitting
between a progress event and the terminal event; the tick ignores the
terminal event behind the stale one. -/
theorem claim_C5_witness :
    isStale 0 evC5stale = true ∧
    scanEventsMulti 0 "tok" "mystack" ([evC5prog] ++ evC5stale :: [evC5done]) =
      scanEventsMulti 0 "tok" "mystack" [evC5prog] :=
  ⟨by decide,
    (claim_C5_stale_truncates 0 "tok" "mystack" evC5stale (by decide)).1
      [evC5prog] [evC5done]⟩

/-! ## Reconciler lemmas -/

/-- A failed map lookup means no entry carries the key. -/
theorem lookupKey_eq_none_forall {k : String} :
    ∀ {ov : List (String × String)}, lookupKey k ov = none →
      ∀ p ∈ ov, p.1 ≠ k := by
  intro ov
  induction ov with
  | nil => intro _ p hp; simp at hp
  | cons q rest ih =>
    intro h p hp
    rw [lookupKey] at h
    by_cases hq : q.1 = k
    · simp [hq] at h
    · rcases List.mem_cons.mp hp with rfl | hp2
      · exact hq
      · exact ih (by simpa [hq] using h) p hp2

/-- Deleting one key does not change lookups of other keys. -/
theorem lookupKey_removeKey {j k : String} (h : j ≠ k) :
    ∀ {ov : List (String × String)},
      lookupKey j (removeKey k ov) = lookupKey j ov := by
  intro ov
  induction ov with
  | nil => rfl
  | cons q rest ih =>
    by_cases hq : q.1 = k
    · have h1 : removeKey k (q :: rest) = removeKey k rest := by
        simp [removeKey, List.filter_cons, hq]
      have h2 : lookupKey j (q :: rest) = lookupKey j rest := by
        rw [lookupKey, if_neg fun hh => h (hh.symm.trans hq)]
      rw [h1, ih, h2]
    · have h1 : removeKey k (q :: rest) = q :: removeKey k rest := by
        simp [removeKey, List.filter_cons, hq]
      rw [h1, lookupKey, lookupKey, ih]

/-- The overrides left after the reconciliation loop are exactly those
whose key does not occur among the current parameters. -/
theorem reconcileMultiAux_fst :
    ∀ (cur ov : List (String × String)) (acc : List Param),
      (reconcileMultiAux ov acc cur).1 =
        ov.filter fun p => decide (p.1 ∉ cur.map Prod.fst) := by
  intro cur
  induction cur with
  | nil =>
    intro ov acc
    simp [reconcileMultiAux]
  | cons q rest ih =>
    intro ov acc
    rw [reconcileMultiAux]
    cases hl : lookupKey q.1 ov with
    | some v =>
      rw [ih, removeKey, List.filter_filter]
      refine List.filter_congr ?_
      intro p _
      by_cases h1 : p.1 = q.1 <;> by_cases h2 : p.1 ∈ rest.map Prod.fst <;>
        simp [List.map_cons, List.mem_cons, h1, h2]
    | none =>
      rw [ih]
      refine List.filter_congr ?_
      intro p hp
      have hne : p.1 ≠ q.1 := lookupKey_eq_none_forall hl p hp
      simp [List.map_cons, List.mem_cons, hne]

/-- The payload entry the loop emits for one current parameter. -/
def paramOf (ov : List (String × String)) (q : String × String) : Param :=
  match lookupKey q.1 ov with
  | some v => .explicit q.1 v
  | none => .usePrevious q.1

/-- When the current parameter keys are distinct, the loop's payload is
the pointwise image of the current list. -/
theorem reconcileMultiAux_snd :
    ∀ (cur : List (String × String)), (cur.map Prod.fst).Nodup →
      ∀ (ov : List (String × String)) (acc : List Param),
        (reconcileMultiAux ov acc cur).2 = acc ++ cur.map (paramOf ov) := by
  intro cur
  induction cur with
  | nil =>
    intro _ ov acc
    simp [reconcileMultiAux]
  | cons q rest ih =>
    intro h ov acc
    rw [List.map_cons, List.nodup_cons] at h
    obtain ⟨hq, hnd⟩ := h
    rw [reconcileMultiAux]
    cases hl : lookupKey q.1 ov with
    | some v =>
      rw [ih hnd]
      have hhead : paramOf ov q = .explicit q.1 v := by simp [paramOf, hl]
      have hmap : rest.map (paramOf (removeKey q.1 ov)) = rest.map (paramOf ov) := by
        refine List.map_congr_left ?_
        intro p hp
        have hne : p.1 ≠ q.1 := fun hh => hq (hh ▸ List.mem_map_of_mem Prod.fst hp)
        simp [paramOf, lookupKey_removeKey hne]
      rw [hmap, List.map_cons, hhead]
      simp
    | none =>
      rw [ih hnd]
      have hhead : paramOf ov q = .usePrevious q.1 := by simp [paramOf, hl]
      rw [List.map_cons, hhead]
      simp

/-- `main.go`'s loop on a current list that does not contain the exact
requested pair: `seenKey` records whether the key occurred, all other
entries become use-previous markers in order. -/
theorem reconcileSingleAux_char (key value : String) :
    ∀ (cur : List (String × String)), (key, value) ∉ cur →
      ∀ (seen : Bool) (acc : List Param),
        reconcileSingleAux key value seen acc cur = .ok
          ((seen || decide (key ∈ cur.map Prod.fst)),
            acc ++ (cur.filter fun p => decide (p.1 ≠ key)).map
              (fun p => Param.usePrevious p.1)) := by
  intro cur
  induction cur with
  | nil =>
    intro _ seen acc
    simp [reconcileSingleAux]
  | cons q rest ih =>
    intro h seen acc
    have hrest : (key, value) ∉ rest := fun hh => h (List.mem_cons_of_mem q hh)
    rw [reconcileSingleAux]
    by_cases h1 : q.1 = key ∧ q.2 = value
    · exact absurd (List.mem_cons.mpr (Or.inl (Prod.ext h1.1 h1.2).symm)) h
    · rw [if_neg h1]
      by_cases h2 : q.1 = key
      · rw [if_pos h2, ih hrest true acc]
        have hmem : key ∈ (q :: rest).map Prod.fst := by
          simp [List.map_cons, h2]
        simp [hmem, List.filter_cons, h2]
      · rw [if_neg h2, ih hrest seen (acc ++ [Param.usePrevious q.1])]
        have hmem : (key ∈ (q :: rest).map Prod.fst) ↔ key ∈ rest.map Prod.fst := by
          simp only [List.map_cons, List.mem_cons]
          exact or_iff_right fun hh => h2 hh.symm
        have hb : (key == q.1) = false := beq_eq_false_iff_ne.mpr (Ne.symm h2)
        simp [hmem, List.filter_cons, h2, hb]

/-- `main.go`'s loop returns `errAlreadySet` whenever the current list
contains the exact requested pair. -/
theorem reconcileSingleAux_alreadySet (key value : String) :
    ∀ (cur : List (String × String)), (key, value) ∈ cur →
      ∀ (seen : Bool) (acc : List Param),
        reconcileSingleAux key value seen acc cur = .error .alreadySet := by
  intro cur
  induction cur with
  | nil =>
    intro h
    simp at h
  | cons q rest ih =>
    intro h seen acc
    rw [reconcileSingleAux]
    by_cases h1 : q.1 = key ∧ q.2 = value
    · rw [if_pos h1]
    · rw [if_neg h1]
      have hrest : (key, value) ∈ rest := by
        rcases List.mem_cons.mp h with heq | hm
        · exact absurd ⟨by rw [← heq], by rw [← heq]⟩ h1
        · exact hm
      by_cases h2 : q.1 = key
      · rw [if_pos h2]
        exact ih hrest true acc
      · rw [if_neg h2]
        exact ih hrest seen _

/-! ## Claim C1 — the reconciled payload.

The multi-parameter reconciler preserves the current list's order with
the overridden entries in place; the single-parameter reconciler
(`main.go`, also cited by the claim) moves the overridden key's entry to
the end of the payload, so "preserves the current list's order" fails. -/

/-- C1, counterexample: in the single-parameter variant, overriding the
*first* parameter of the stack yields a payload whose key order differs
from the current list's order — the overridden entry is appended last. -/
theorem claim_C1_counterexample :
    reconcileSingle [("ImageTag", "v1"), ("Env", "prod")] "ImageTag" "v2" =
      .ok [Param.usePrevious "Env", Param.explicit "ImageTag" "v2"] ∧
    [Param.usePrevious "Env", Param.explicit "ImageTag" "v2"].map Param.key ≠
      [("ImageTag", "v1"), ("Env", "prod")].map Prod.fst := by decide

/-- C1, amended: for a current list with distinct keys and overrides
whose keys all occur in it, the multi-parameter reconciler returns
exactly one entry per current parameter, in the current order, the
overridden keys carrying the override value and all others marked
use-previous; the single-parameter reconciler (when the requested pair is
not already current) produces the use-previous entries in current order
*followed by* the overridden entry at the end. -/
theorem claim_C1_amended :
    (∀ current overrides : List (String × String),
      (current.map Prod.fst).Nodup →
      (∀ k ∈ overrides.map Prod.fst, k ∈ current.map Prod.fst) →
      reconcileMulti current overrides = .ok (current.map (paramOf overrides))) ∧
    (∀ (current : List (String × String)) (key value : String),
      key ∈ current.map Prod.fst → (key, value) ∉ current →
      reconcileSingle current key value = .ok
        ((current.filter fun p => decide (p.1 ≠ key)).map
          (fun p => Param.usePrevious p.1) ++ [Param.explicit key value])) := by
  constructor
  · intro current overrides hnd hsub
    have h1 : (reconcileMultiAux overrides [] current).1 = [] := by
      rw [reconcileMultiAux_fst]
      refine List.filter_eq_nil_iff.mpr ?_
      intro p hp
      simp only [decide_eq_true_eq, not_not]
      exact hsub p.1 (List.mem_map_of_mem Prod.fst hp)
    have h2 := reconcileMultiAux_snd current hnd overrides []
    simp only [reconcileMulti]
    rw [h1, h2]
    simp
  · intro current key value hk hnv
    rw [reconcileSingle, reconcileSingleAux_char key value current hnv false []]
    simp [hk]

/-- C1, witness: the amended theorem at spec scenario A — the stack has
parameters Env and ImageTag, ImageTag is overridden to v2 — for both
variants. -/
theorem claim_C1_witness :
    reconcileMulti [("Env", "prod"), ("ImageTag", "v1")] [("ImageTag", "v2")] =
      .ok [Param.usePrevious "Env", Param.explicit "ImageTag" "v2"] ∧
    reconcileSingle [("Env", "prod"), ("ImageTag", "v1")] "ImageTag" "v2" =
      .ok [Param.usePrevious "Env", Param.explicit "ImageTag" "v2"] :=
  ⟨(claim_C1_amended.1 [("Env", "prod"), ("ImageTag", "v1")] [("ImageTag", "v2")]
      (by decide) (by decide)).trans (by decide),
   (claim_C1_amended.2 [("Env", "prod"), ("ImageTag", "v1")] "ImageTag" "v2"
      (by decide) (by decide)).trans (by decide)⟩

/-! ## Sorting lemmas -/

/-- Lexicographic comparison is total. -/
theorem lexLe_total : ∀ as bs : List Char, lexLe as bs = true ∨ lexLe bs as = true := by
  intro as
  induction as with
  | nil =>
    intro bs
    exact Or.inl rfl
  | cons a as2 ih =>
    intro bs
    cases bs with
    | nil => exact Or.inr rfl
    | cons b bs2 =>
      rcases lt_trichotomy a b with h | h | h
      · left
        simp [lexLe, h]
      · subst h
        rcases ih bs2 with h2 | h2
        · left
          simp [lexLe, lt_irrefl, h2]
        · right
          simp [lexLe, lt_irrefl, h2]
      · right
        simp [lexLe, h]

/-- String comparison is total. -/
theorem strLe_total (a b : String) : strLe a b = true ∨ strLe b a = true :=
  lexLe_total a.data b.data

/-- Membership in an insertion. -/
theorem mem_insertSorted {a x : String} :
    ∀ {l : List String}, a ∈ insertSorted x l ↔ a = x ∨ a ∈ l := by
  intro l
  induction l with
  | nil => simp [insertSorted]
  | cons y ys ih =>
    rw [insertSorted]
    by_cases h : strLe x y = true
    · rw [if_pos h]
      simp [List.mem_cons]
    · rw [if_neg h]
      simp only [List.mem_cons, ih]
      tauto

/-- Membership in the sorted list. -/
theorem mem_sortStrings {a : String} :
    ∀ {l : List String}, a ∈ sortStrings l ↔ a ∈ l := by
  intro l
  induction l with
  | nil => simp [sortStrings]
  | cons b bs ih =>
    show a ∈ insertSorted b (sortStrings bs) ↔ _
    rw [mem_insertSorted]
    simp only [List.mem_cons]
    rw [ih]

/-- Inserting into a list whose adjacent elements are ordered keeps the
adjacent elements ordered. -/
theorem chain'_insertSorted (x : String) :
    ∀ l : List String, List.Chain' (fun a b => strLe a b = true) l →
      List.Chain' (fun a b => strLe a b = true) (insertSorted x l) := by
  intro l
  induction l with
  | nil =>
    intro _
    simp [insertSorted]
  | cons y ys ih =>
    intro hch
    rw [insertSorted]
    by_cases hxy : strLe x y = true
    · rw [if_pos hxy]
      exact List.chain'_cons.mpr ⟨hxy, hch⟩
    · rw [if_neg hxy]
      have hyx : strLe y x = true := (strLe_total x y).resolve_left hxy
      have hih := ih hch.tail
      refine List.chain'_cons'.mpr ⟨?_, hih⟩
      intro z hz
      cases ys with
      | nil =>
        simp [insertSorted] at hz
        subst hz
        exact hyx
      | cons w ws =>
        rw [insertSorted] at hz
        by_cases hxw : strLe x w = true
        · rw [if_pos hxw] at hz
          simp at hz
          subst hz
          exact hyx
        · rw [if_neg hxw] at hz
          simp at hz
          subst hz
          exact (List.chain'_cons.mp hch).1

/-- The output of `sortStrings` is sorted: every adjacent pair is ordered. -/
theorem chain'_sortStrings (l : List String) :
    List.Chain' (fun a b => strLe a b = true) (sortStrings l) := by
  induction l with
  | nil => simp [sortStrings]
  | cons a as ih => exact chain'_insertSorted a _ ih

/-! ## Claim C6 — unknown override keys. -/

/-- C6: when some override key does not occur among the current
parameters, the multi-parameter reconciler fails with the
unknown-parameters error whose key list contains exactly the override
keys absent from the current list, in sorted order. -/
theorem claim_C6_unknown_keys (current overrides : List (String × String))
    (h : ∃ k ∈ overrides.map Prod.fst, k ∉ current.map Prod.fst) :
    reconcileMulti current overrides = .error (.unknownParameters
      (sortStrings ((overrides.filter fun p =>
        decide (p.1 ∉ current.map Prod.fst)).map Prod.fst))) ∧
    (∀ k, k ∈ sortStrings ((overrides.filter fun p =>
        decide (p.1 ∉ current.map Prod.fst)).map Prod.fst) ↔
      k ∈ overrides.map Prod.fst ∧ k ∉ current.map Prod.fst) ∧
    List.Chain' (fun a b => strLe a b = true)
      (sortStrings ((overrides.filter fun p =>
        decide (p.1 ∉ current.map Prod.fst)).map Prod.fst)) := by
  obtain ⟨k, hk, hknot⟩ := h
  refine ⟨?_, ?_, chain'_sortStrings _⟩
  · obtain ⟨p, hp, hpk⟩ := List.mem_map.mp hk
    have hpfil : p ∈ overrides.filter fun p => decide (p.1 ∉ current.map Prod.fst) :=
      List.mem_filter.mpr ⟨hp, by simp [hpk, hknot]⟩
    have hne : (overrides.filter fun p =>
        decide (p.1 ∉ current.map Prod.fst)) ≠ [] := List.ne_nil_of_mem hpfil
    simp only [reconcileMulti]
    rw [reconcileMultiAux_fst]
    simp only [List.isEmpty_iff, hne, if_false]
  · intro j
    rw [mem_sortStrings]
    simp only [List.mem_map, List.mem_filter, decide_eq_true_eq]
    constructor
    · rintro ⟨p, ⟨hp, hpn⟩, rfl⟩
      exact ⟨⟨p, hp, rfl⟩, hpn⟩
    · rintro ⟨⟨p, hp, rfl⟩, hjn⟩
      exact ⟨p, ⟨hp, hjn⟩, rfl⟩

/-- C6, witness: spec scenario C extended with a second unknown key — the
error names both unknown keys, sorted. -/
theorem claim_C6_witness :
    reconcileMulti [("Env", "prod")] [("Region", "us-east-1"), ("Apex", "1")] =
      .error (.unknownParameters ["Apex", "Region"]) :=
  ((claim_C6_unknown_keys [("Env", "prod")]
      [("Region", "us-east-1"), ("Apex", "1")] (by decide)).1).trans (by decide)

/-! ## Claim C7 — classification of submission errors. -/

/-- C7: both `main` functions treat an API error as the benign
nothing-to-update outcome (warning, success exit) exactly when its error
code is "ValidationError" and its message is "No updates are to be
performed."; every other error value is fatal. -/
theorem claim_C7_nothing_to_update :
    (∀ code msg, mainExitMulti (.api code msg) = .successWithWarning ↔
      code = "ValidationError" ∧ msg = "No updates are to be performed.") ∧
    (∀ code msg, mainExitSingle (.api code msg) = .successWithWarning ↔
      code = "ValidationError" ∧ msg = "No updates are to be performed.") ∧
    (∀ msg, mainExitMulti (.other msg) = .failureExit) ∧
    (∀ msg, mainExitSingle (.other msg) = .failureExit) := by
  refine ⟨?_, ?_, fun _ => rfl, fun _ => rfl⟩ <;>
    · intro code msg
      simp only [mainExitMulti, mainExitSingle]
      split_ifs with h <;> simp_all

/-! ## Claim C8 — the already-set short circuit (single-parameter mode). -/

/-- C8: when the stack's current parameters contain the exact requested
pair, `main.go`'s reconciliation returns `errAlreadySet`, nothing is
submitted to `UpdateStack`, and `main` prints a warning and exits
successfully. -/
theorem claim_C8_already_set (current : List (String × String))
    (key value : String) (h : (key, value) ∈ current) :
    reconcileSingle current key value = .error .alreadySet ∧
    runSinglePayload current key value = none ∧
    mainExitSingle .alreadySet = .successWithWarning := by
  have hrec : reconcileSingle current key value = .error .alreadySet := by
    rw [reconcileSingle, reconcileSingleAux_alreadySet key value current h false []]
  exact ⟨hrec, by rw [runSinglePayload, hrec], rfl⟩

/-- C8, witness: spec scenario B — the override ImageTag=v1 equals the
stack's current value. -/
theorem claim_C8_witness :
    reconcileSingle [("Env", "prod"), ("ImageTag", "v1")] "ImageTag" "v1" =
      .error .alreadySet ∧
    runSinglePayload [("Env", "prod"), ("ImageTag", "v1")] "ImageTag" "v1" = none ∧
    mainExitSingle .alreadySet = .successWithWarning :=
  claim_C8_already_set [("Env", "prod"), ("ImageTag", "v1")] "ImageTag" "v1"
    (by decide)

/-! ## Parser lemmas -/

/-- A line that trims to the empty string is skipped. -/
theorem parseLine_blank_of_trim {l : String} (h : goTrim l = "") :
    parseLine l = .blank := by
  simp [parseLine, h]

/-- On an input of blank lines only, the loop carries its map through. -/
theorem parseKvsAux_all_blank :
    ∀ lines : List String, (∀ l ∈ lines, goTrim l = "") →
      ∀ out, parseKvsAux out lines = .ok out := by
  intro lines
  induction lines with
  | nil =>
    intro _ out
    rfl
  | cons l rest ih =>
    intro h out
    rw [parseKvsAux, parseLine_blank_of_trim (h l (List.mem_cons_self l rest))]
    exact ih (fun x hx => h x (List.mem_cons_of_mem l hx)) out

/-- On rejection-free lines whose keys (together with the keys already in
the map) repeat, the loop fails with a duplicate-key error, and the named
key either was already in the map or occurs at least twice in the lines. -/
theorem parseKvsAux_duplicate :
    ∀ (lines : List String) (out : List (String × String)),
      (∀ l ∈ lines, lineOk l = true) →
      ¬ ((out.map Prod.fst) ++ lineKeys lines).Nodup →
      (out.map Prod.fst).Nodup →
      ∃ k, parseKvsAux out lines = .error (.duplicateKey k) ∧
        ((k ∈ out.map Prod.fst ∧ 1 ≤ (lineKeys lines).count k) ∨
          2 ≤ (lineKeys lines).count k) := by
  intro lines
  induction lines with
  | nil =>
    intro out _ h2 h3
    exact absurd (by simpa [lineKeys] using h3) h2
  | cons l rest ih =>
    intro out h1 h2 h3
    have h1r : ∀ x ∈ rest, lineOk x = true :=
      fun x hx => h1 x (List.mem_cons_of_mem l hx)
    cases hpl : parseLine l with
    | blank =>
      have hlk : lineKeys (l :: rest) = lineKeys rest := by
        simp [lineKeys, hpl]
      rw [hlk] at h2
      obtain ⟨k, haux, hc⟩ := ih out h1r h2 h3
      refine ⟨k, ?_, by rw [← hlk] at hc; exact hc⟩
      rw [parseKvsAux, hpl]
      exact haux
    | malformed e =>
      have := h1 l (List.mem_cons_self l rest)
      rw [lineOk, hpl] at this
      simp at this
    | pair k v =>
      have hlk : lineKeys (l :: rest) = k :: lineKeys rest := by
        simp [lineKeys, hpl]
      by_cases hmem : k ∈ out.map Prod.fst
      · refine ⟨k, ?_, Or.inl ⟨hmem, ?_⟩⟩
        · rw [parseKvsAux, hpl]
          exact if_pos hmem
        · rw [hlk, List.count_cons_self]
          exact Nat.le_add_left 1 _
      · have hkeys : (out ++ [(k, v)]).map Prod.fst = out.map Prod.fst ++ [k] := by
          simp
        have h2n : ¬ (((out ++ [(k, v)]).map Prod.fst) ++ lineKeys rest).Nodup := by
          rw [hkeys, List.append_assoc]
          rw [hlk] at h2
          simpa using h2
        have h3n : ((out ++ [(k, v)]).map Prod.fst).Nodup := by
          rw [hkeys]
          refine List.Nodup.append h3 (List.nodup_singleton k) ?_
          intro a ha hb
          rw [List.mem_singleton] at hb
          exact hmem (hb ▸ ha)
        obtain ⟨k0, haux, hc⟩ := ih (out ++ [(k, v)]) h1r h2n h3n
        refine ⟨k0, ?_, ?_⟩
        · rw [parseKvsAux, hpl]
          exact (if_neg hmem).trans haux
        · rw [hlk]
          rcases hc with ⟨hk0, hcnt⟩ | hcnt

          · rw [hkeys] at hk0
            rcases List.mem_append.mp hk0 with hk0o | hk0s
            · refine Or.inl ⟨hk0o, ?_⟩
              calc 1 ≤ (lineKeys rest).count k0 := hcnt
                _ ≤ (k :: lineKeys rest).count k0 := List.count_le_count_cons k0 k _
            · rw [List.mem_singleton] at hk0s
              subst hk0s
              refine Or.inr ?_
              rw [List.count_cons_self]
              exact Nat.add_le_add_right hcnt 1
          · refine Or.inr ?_
            calc 2 ≤ (lineKeys rest).count k0 := hcnt
              _ ≤ (k :: lineKeys rest).count k0 := List.count_le_count_cons k0 k _

/-! ## Claim C9 — duplicate keys. -/

/-- C9, counterexample: the input has the key k on two well-formed
non-blank lines, yet the parser fails with the *format* error for the
earlier malformed line "junk", not with the duplicate-key error the claim
requires. -/
theorem claim_C9_counterexample :
    parseKvs ["junk", "k=1", "k=2"] = .error (.badFormat "junk") ∧
    isDuplicateKeyError (parseKvs ["junk", "k=1", "k=2"]) = false ∧
    lineKeys ["junk", "k=1", "k=2"] = ["k", "k"] ∧
    ¬ (lineKeys ["junk", "k=1", "k=2"]).Nodup := by decide

/-- C9, amended: for every line set in which *no line is malformed* and
the same key (after trimming) appears on two well-formed non-blank lines,
the parser fails with the duplicate-key error naming a repeated key,
regardless of whether the two values are equal; if some line is
malformed, the parser can fail with a format error instead. -/
theorem claim_C9_amended (lines : List String)
    (h1 : ∀ l ∈ lines, lineOk l = true)
    (h2 : ¬ (lineKeys lines).Nodup) :
    ∃ k, 2 ≤ (lineKeys lines).count k ∧
      parseKvs lines = .error (.duplicateKey k) := by
  obtain ⟨k, haux, hc⟩ := parseKvsAux_duplicate lines [] h1 (by simpa using h2)
    (by simp)
  rcases hc with ⟨hmem, _⟩ | hcnt
  · simp at hmem
  · exact ⟨k, hcnt, haux⟩

/-- C9, witness: the duplicated key ImageTag, with different values, on
otherwise well-formed lines. -/
theorem claim_C9_witness :
    ∃ k, 2 ≤ (lineKeys ["ImageTag=v1", "Env=a", "ImageTag=v2"]).count k ∧
      parseKvs ["ImageTag=v1", "Env=a", "ImageTag=v2"] =
        .error (.duplicateKey k) :=
  claim_C9_amended ["ImageTag=v1", "Env=a", "ImageTag=v2"] (by decide) (by decide)

/-! ## Claim C10 — the empty-parameters rejection. -/

/-- C10: an argument list with no non-blank lines parses successfully to
the empty mapping, and the multi-parameter `run` then rejects it with the
"empty parameters list" error in its phase before any AWS call. -/
theorem claim_C10_empty_params (stackName : String) (args : List String)
    (h1 : stackName ≠ "") (h2 : ∀ l ∈ args, goTrim l = "") :
    parseKvs args = .ok [] ∧
    runMultiPre stackName args = .error .emptyParameters := by
  have hp : parseKvs args = .ok [] := parseKvsAux_all_blank args h2 []
  refine ⟨hp, ?_⟩
  rw [runMultiPre, if_neg h1, hp]
  rfl

/-- C10, witness: a blank-only parameters input against stack "prod". -/
theorem claim_C10_witness :
    parseKvs ["", "  "] = .ok [] ∧
    runMultiPre "prod" ["", "  "] = .error .emptyParameters :=
  claim_C10_empty_params "prod" ["", "  "] (by decide) (by decide)

end UpdateCfnStack
